import Mathlib

/-!
Verification of the SRE-agent runtime (alert intake, admission and dispatch
core) against its natural-language specification.

The Python sources are shallowly embedded:
* floating point timestamps (`time.time()`) are modelled as rationals `ℚ`;
* Python `int` counters are modelled as `Int` (they may go negative);
* Python sets / dicts are modelled as lists (resp. association lists),
  with the exact membership / first-match semantics of the code;
* the `heapq` priority queue is modelled as a plain list; successive
  `heappop` calls return a minimal element with respect to `QueuedAlert.__lt__`,
  which we model as processing the queue in stable-sorted order
  (`List.insertionSort` with the reflexive closure of `__lt__`);
* `asyncio` tasks are modelled by an explicit `tasks` field listing the
  alerts owned by outstanding run tasks; the completion callback is an
  explicit transition.
-/

namespace SreAgent

/-- `models.Priority`: the PagerDuty priority enum. -/
inductive Priority
  | P1
  | P2
  | P3
  | P4
deriving DecidableEq

/-- `models.PagerDutyAlert`, restricted to the fields the intake pipeline
reads (`incident_id`, `service_name`, `priority`). -/
structure PagerDutyAlert where
  incident_id : String
  service_name : String
  priority : Option Priority
deriving DecidableEq

/-- `intake._priority_rank`: map the priority enum to a sort rank.
`P1=1` (highest), `None=99` (lowest). -/
def priority_rank : Option Priority → Nat
  | none => 99
  | some .P1 => 1
  | some .P2 => 2
  | some .P3 => 3
  | some .P4 => 4

/-- `intake.QueuedAlert`: an alert waiting in the intake queue. -/
structure QueuedAlert where
  alert : PagerDutyAlert
  trace_id : String
  enqueued_at : ℚ
  priority_rank : Nat
deriving DecidableEq

/-- `QueuedAlert.__lt__`: lower `priority_rank` wins (P1 < P2); ties broken
by enqueue time (FIFO). -/
def QueuedAlert.lt (a b : QueuedAlert) : Prop :=
  a.priority_rank < b.priority_rank ∨
    (a.priority_rank = b.priority_rank ∧ a.enqueued_at < b.enqueued_at)

/-- The heap-order comparison used to model the `heapq` pop order: `a.le b`
holds iff `¬ b.lt a`, i.e. `a`'s key `(priority_rank, enqueued_at)` is
lexicographically at most `b`'s. -/
def QueuedAlert.le (a b : QueuedAlert) : Prop :=
  a.priority_rank < b.priority_rank ∨
    (a.priority_rank = b.priority_rank ∧ a.enqueued_at ≤ b.enqueued_at)

instance : DecidableRel QueuedAlert.lt := fun a b => by
  unfold QueuedAlert.lt; infer_instance

instance : DecidableRel QueuedAlert.le := fun a b => by
  unfold QueuedAlert.le; infer_instance

instance : IsTotal QueuedAlert QueuedAlert.le where
  total := by
    intro a b
    unfold QueuedAlert.le
    rcases Nat.lt_trichotomy a.priority_rank b.priority_rank with h | h | h
    · exact Or.inl (Or.inl h)
    · rcases le_total a.enqueued_at b.enqueued_at with h' | h'
      · exact Or.inl (Or.inr ⟨h, h'⟩)
      · exact Or.inr (Or.inr ⟨h.symm, h'⟩)
    · exact Or.inr (Or.inl h)

instance : IsTrans QueuedAlert QueuedAlert.le where
  trans := by
    intro a b c hab hbc
    unfold QueuedAlert.le at *
    rcases hab with h1 | ⟨h1, h1'⟩ <;> rcases hbc with h2 | ⟨h2, h2'⟩
    · exact Or.inl (h1.trans h2)
    · exact Or.inl (h2 ▸ h1)
    · exact Or.inl (h1 ▸ h2)
    · exact Or.inr ⟨h1.trans h2, h1'.trans h2'⟩

/-- The disposition returned by `AlertIntake.submit`. -/
inductive Disposition
  | dispatched
  | queued
  | deduplicated
  | rejected
deriving DecidableEq

/-- First-match lookup in an association list: the semantics of reading a
Python `dict` key (keys are unique in an actual dict, so first match is
exact). -/
def lookupKey {α : Type} (k : String) : List (String × α) → Option α
  | [] => none
  | (k', v) :: rest => if k' = k then some v else lookupKey k rest

/-- Python `dict.pop(k, None)`: remove the entry for key `k` (first match). -/
def popKey {α : Type} (k : String) : List (String × α) → List (String × α)
  | [] => []
  | (k', v) :: rest => if k' = k then rest else (k', v) :: popKey k rest

/-- Python `dict[k] = v`: replace the entry for key `k`, or append it. -/
def setKey {α : Type} (k : String) (v : α) : List (String × α) → List (String × α)
  | [] => [(k, v)]
  | (k', v') :: rest => if k' = k then (k, v) :: rest else (k', v') :: setKey k v rest

/-- The mutable state of `intake.AlertIntake` (all fields protected by the
single `asyncio.Lock`), together with the two configuration fields and the
parts of `state.RuntimeState` / the OpenTelemetry gauges that the intake
pipeline writes. -/
structure IntakeState where
  max_concurrent : Int
  queue_ttl_seconds : ℚ
  known_incidents : List String
  active_services : List (String × String)
  active_count : Int
  queue : List QueuedAlert
  tasks : List PagerDutyAlert
  shutting_down : Bool
  alerts_deduplicated : Int
  alerts_queued : Int
  alerts_expired : Int
  queue_depth_gauge : Int
  active_incidents : List (String × ℚ)
deriving DecidableEq

/-- The initial state built by `AlertIntake.__init__`. -/
def initState (max_concurrent : Int) (queue_ttl_seconds : ℚ) : IntakeState where
  max_concurrent := max_concurrent
  queue_ttl_seconds := queue_ttl_seconds
  known_incidents := []
  active_services := []
  active_count := 0
  queue := []
  tasks := []
  shutting_down := false
  alerts_deduplicated := 0
  alerts_queued := 0
  alerts_expired := 0
  queue_depth_gauge := 0
  active_incidents := []

/-- `AlertIntake.submit(alert, trace_id)`; `now` stands for `time.time()`. -/
def submit (s : IntakeState) (alert : PagerDutyAlert) (trace_id : String) (now : ℚ) :
    Disposition × IntakeState :=
  if s.shutting_down then (.rejected, s)
  else if alert.incident_id ∈ s.known_incidents then
    (.deduplicated, { s with alerts_deduplicated := s.alerts_deduplicated + 1 })
  else
    let s1 := { s with known_incidents := alert.incident_id :: s.known_incidents }
    if (lookupKey alert.service_name s1.active_services) = none ∧
        s1.active_count < s1.max_concurrent then
      (.dispatched,
        { s1 with
          active_count := s1.active_count + 1
          active_services := setKey alert.service_name alert.incident_id s1.active_services
          active_incidents := setKey alert.incident_id now s1.active_incidents
          tasks := alert :: s1.tasks })
    else
      (.queued,
        { s1 with
          queue := s1.queue ++ [⟨alert, trace_id, now, priority_rank alert.priority⟩]
          alerts_queued := s1.alerts_queued + 1
          queue_depth_gauge := s1.queue_depth_gauge + 1 })

/-- The running accumulator of the `while self._queue:` loop in
`AlertIntake._dispatch_next`: the elected alert (if any), the held-aside
candidates (`remaining`), and the expired candidates, in processing order. -/
structure ScanResult where
  eligible : Option QueuedAlert
  remaining : List QueuedAlert
  expired : List QueuedAlert
deriving DecidableEq

/-- The scan loop of `AlertIntake._dispatch_next`, processing the heap pops
in order: stale candidates (age strictly above the TTL) are expired; the
first fresh candidate whose service has no active run is elected; everything
else is held aside in `remaining`. -/
def scanLoop (ttl now : ℚ) (active : List (String × String)) :
    List QueuedAlert → Option QueuedAlert → List QueuedAlert → List QueuedAlert → ScanResult
  | [], elig, remaining, expired => ⟨elig, remaining, expired⟩
  | c :: cs, elig, remaining, expired =>
    if now - c.enqueued_at > ttl then
      scanLoop ttl now active cs elig remaining (expired ++ [c])
    else if elig = none ∧ lookupKey c.alert.service_name active = none then
      scanLoop ttl now active cs (some c) remaining expired
    else
      scanLoop ttl now active cs elig (remaining ++ [c]) expired

/-- `AlertIntake._dispatch_next` (caller holds the lock): pick the next
eligible alert from the queue, expiring stale alerts along the way. The
`heappop` sequence is modelled by the stable sort of the queue under the
key `(priority_rank, enqueued_at)`. -/
def dispatch_next (s : IntakeState) (now : ℚ) : IntakeState :=
  if s.queue = [] ∨ s.max_concurrent ≤ s.active_count then s
  else
    let r := scanLoop s.queue_ttl_seconds now s.active_services
      (List.insertionSort QueuedAlert.le s.queue) none [] []
    let s1 := { s with
      queue := r.remaining
      known_incidents := r.expired.foldl (fun k c => k.erase c.alert.incident_id) s.known_incidents
      alerts_expired := s.alerts_expired + r.expired.length
      queue_depth_gauge := s.queue_depth_gauge - r.expired.length }
    match r.eligible with
    | none => s1
    | some e =>
      { s1 with
        active_count := s1.active_count + 1
        active_services := setKey e.alert.service_name e.alert.incident_id s1.active_services
        active_incidents := setKey e.alert.incident_id now s1.active_incidents
        tasks := e.alert :: s1.tasks
        queue_depth_gauge := s1.queue_depth_gauge - 1 }

/-- `AlertIntake._on_complete(alert)` together with the task-set discard done
by the `add_done_callback` hook: decrement the active count, forget the
incident and free its service, then — unless shutting down — run the
next-dispatch scan. -/
def on_complete (s : IntakeState) (alert : PagerDutyAlert) (now : ℚ) : IntakeState :=
  let s1 := { s with
    active_count := s.active_count - 1
    known_incidents := s.known_incidents.erase alert.incident_id
    active_services := popKey alert.service_name s.active_services
    tasks := s.tasks.erase alert }
  if s1.shutting_down then s1 else dispatch_next s1 now

/-- The state mutation of `AlertIntake.shutdown` (the subsequent
`asyncio.wait` on the outstanding tasks does not change intake state). -/
def shutdown (s : IntakeState) : IntakeState :=
  { s with
    shutting_down := true
    known_incidents := s.queue.foldl (fun k q => k.erase q.alert.incident_id) s.known_incidents
    queue_depth_gauge := s.queue_depth_gauge - s.queue.length
    queue := [] }

/-- One observable transition of the intake pipeline: a webhook submission,
the completion callback of a running task, or shutdown. A completion event
must name an alert whose run task is actually outstanding. -/
inductive Step : IntakeState → IntakeState → Prop
  | ofSubmit (s : IntakeState) (a : PagerDutyAlert) (tr : String) (now : ℚ) :
      Step s (submit s a tr now).2
  | ofComplete (s : IntakeState) (a : PagerDutyAlert) (now : ℚ) (h : a ∈ s.tasks) :
      Step s (on_complete s a now)
  | ofShutdown (s : IntakeState) : Step s (shutdown s)

/-- States reachable from a freshly constructed intake pipeline. -/
inductive Reachable (max_concurrent : Int) (ttl : ℚ) : IntakeState → Prop
  | init : Reachable max_concurrent ttl (initState max_concurrent ttl)
  | step {s s' : IntakeState} : Reachable max_concurrent ttl s → Step s s' →
      Reachable max_concurrent ttl s'

/-- `n` back-to-back submissions of the same webhook (same alert, same
trace id), with no intermediate completion. -/
def submitN (s : IntakeState) (a : PagerDutyAlert) (tr : String) (now : ℚ) :
    Nat → List Disposition × IntakeState
  | 0 => ([], s)
  | n + 1 =>
    let r := submit s a tr now
    let rest := submitN r.2 a tr now n
    (r.1 :: rest.1, rest.2)

theorem submit_dedup (s : IntakeState) (a : PagerDutyAlert) (tr : String) (now : ℚ)
    (hsd : s.shutting_down = false) (hmem : a.incident_id ∈ s.known_incidents) :
    submit s a tr now =
      (.deduplicated, { s with alerts_deduplicated := s.alerts_deduplicated + 1 }) := by
  simp [submit, hsd, hmem]

theorem submitN_dedup (a : PagerDutyAlert) (tr : String) (now : ℚ) (n : Nat)
    (s : IntakeState)
    (hsd : s.shutting_down = false) (hmem : a.incident_id ∈ s.known_incidents) :
    submitN s a tr now n =
      (List.replicate n .deduplicated,
       { s with alerts_deduplicated := s.alerts_deduplicated + n }) := by
  induction n generalizing s with
  | zero => simp [submitN]
  | succ n ih =>
    have h1 := submit_dedup s a tr now hsd hmem
    have h2 := ih { s with alerts_deduplicated := s.alerts_deduplicated + 1 } hsd hmem
    simp only [submitN, h1, h2, List.replicate_succ, Prod.mk.injEq, IntakeState.mk.injEq,
      true_and, and_true]
    push_cast
    ring

theorem lookupKey_none_popKey_setKey {α : Type} (k : String) (v : α)
    (l : List (String × α)) (h : lookupKey k l = none) :
    popKey k (setKey k v l) = l := by
  induction l with
  | nil => simp [setKey, popKey]
  | cons p rest ih =>
    obtain ⟨k', v'⟩ := p
    by_cases hk : k' = k
    · simp [lookupKey, hk] at h
    · simp [lookupKey, hk] at h
      simp [setKey, popKey, hk, ih h]

theorem submit_dispatch (s : IntakeState) (a : PagerDutyAlert) (tr : String) (now : ℚ)
    (hsd : s.shutting_down = false) (hmem : a.incident_id ∉ s.known_incidents)
    (hsvc : lookupKey a.service_name s.active_services = none)
    (hcnt : s.active_count < s.max_concurrent) :
    submit s a tr now =
      (.dispatched,
        { s with
          known_incidents := a.incident_id :: s.known_incidents
          active_count := s.active_count + 1
          active_services := setKey a.service_name a.incident_id s.active_services
          active_incidents := setKey a.incident_id now s.active_incidents
          tasks := a :: s.tasks }) := by
  simp [submit, hsd, hmem, hsvc, hcnt]

/-- C1: if an alert's `incident_id` is already in `known_incidents` (queued or
active), `submit` returns `deduplicated`, bumps only the dedup counter and
leaves every other intake field unchanged; consequently, starting from a
state where the alert can dispatch, a burst of identical submits yields
exactly one `dispatched` followed by `deduplicated` only, and once the run
completes a fresh submit of the same `incident_id` dispatches again. -/
theorem submit_dedup_global_and_idempotent
    (s : IntakeState) (a : PagerDutyAlert) (tr tr' tr'' : String) (now now' now'' : ℚ)
    (n : Nat) :
    (s.shutting_down = false → a.incident_id ∈ s.known_incidents →
      submit s a tr now =
        (.deduplicated, { s with alerts_deduplicated := s.alerts_deduplicated + 1 }))
    ∧
    (s.shutting_down = false →
     a.incident_id ∉ s.known_incidents →
     lookupKey a.service_name s.active_services = none →
     s.active_count < s.max_concurrent →
     s.queue = [] →
     (submit s a tr now).1 = .dispatched ∧
     (submitN (submit s a tr now).2 a tr' now' n).1 = List.replicate n .deduplicated ∧
     (submit (on_complete (submitN (submit s a tr now).2 a tr' now' n).2 a now')
        a tr'' now'').1 = .dispatched) := by
  constructor
  · intro hsd hmem
    exact submit_dedup s a tr now hsd hmem
  · intro hsd hmem hsvc hcnt hq
    have h1 := submit_dispatch s a tr now hsd hmem hsvc hcnt
    have h3 := submitN_dedup a tr' now' n
      { s with
        known_incidents := a.incident_id :: s.known_incidents
        active_services := setKey a.service_name a.incident_id s.active_services
        active_count := s.active_count + 1
        active_incidents := setKey a.incident_id now s.active_incidents
        tasks := a :: s.tasks }
      hsd (List.mem_cons_self _ _)
    refine ⟨by rw [h1], ?_, ?_⟩
    · simp only [h1]
      rw [h3]
    · simp only [h1]
      rw [h3]
      simp only [on_complete, List.erase_cons_head, hq,
        lookupKey_none_popKey_setKey a.service_name a.incident_id s.active_services hsvc,
        add_sub_cancel_right, hsd, dispatch_next]
      simp only [Bool.false_eq_true, if_false, List.nil_eq, true_or, if_true]
      simp [submit, hsd, hmem, hsvc, hcnt]

/-- Witness for C1, on concrete data: a dedup hit with `inc-1` already
known, and the scenario `dispatched, deduplicated, deduplicated`, complete,
`dispatched` from a fresh pipeline with `max_concurrent = 3`. -/
theorem submit_dedup_global_and_idempotent_witness :
    (submit { initState 3 600 with known_incidents := ["inc-1"] }
        ⟨"inc-1", "api", some .P2⟩ "t0" 0 =
      (.deduplicated,
        { { initState 3 600 with known_incidents := ["inc-1"] } with
          alerts_deduplicated :=
            { initState 3 600 with known_incidents := ["inc-1"] }.alerts_deduplicated + 1 }))
    ∧ ((submit (initState 3 600) ⟨"inc-1", "api", some .P2⟩ "t0" 0).1 = .dispatched
      ∧ (submitN (submit (initState 3 600) ⟨"inc-1", "api", some .P2⟩ "t0" 0).2
          ⟨"inc-1", "api", some .P2⟩ "t1" 1 2).1 = List.replicate 2 .deduplicated
      ∧ (submit
          (on_complete
            (submitN (submit (initState 3 600) ⟨"inc-1", "api", some .P2⟩ "t0" 0).2
              ⟨"inc-1", "api", some .P2⟩ "t1" 1 2).2
            ⟨"inc-1", "api", some .P2⟩ 1)
          ⟨"inc-1", "api", some .P2⟩ "t2" 2).1 = .dispatched) :=
  ⟨(submit_dedup_global_and_idempotent
      { initState 3 600 with known_incidents := ["inc-1"] }
      ⟨"inc-1", "api", some .P2⟩ "t0" "t1" "t2" 0 1 2 2).1 rfl (by decide),
   (submit_dedup_global_and_idempotent (initState 3 600)
      ⟨"inc-1", "api", some .P2⟩ "t0" "t1" "t2" 0 1 2 2).2 rfl (by decide) rfl
      (by decide) rfl⟩

/-- A queued alert is stale at time `now` when its age strictly exceeds the
queue TTL (the expiry test of `_dispatch_next`). -/
def isStale (ttl now : ℚ) (c : QueuedAlert) : Bool := decide (now - c.enqueued_at > ttl)

theorem scanLoop_some (ttl now : ℚ) (active : List (String × String))
    (l : List QueuedAlert) (x : QueuedAlert) :
    ∀ rem ex, scanLoop ttl now active l (some x) rem ex =
      ⟨some x, rem ++ l.filter (fun c => !isStale ttl now c),
        ex ++ l.filter (isStale ttl now)⟩ := by
  induction l with
  | nil => intro rem ex; simp [scanLoop]
  | cons c cs ih =>
    intro rem ex
    by_cases hc : now - c.enqueued_at > ttl
    · simp [scanLoop, hc, isStale, ih]
    · simp [scanLoop, hc, isStale, ih]

theorem scanLoop_none (ttl now : ℚ) (active : List (String × String))
    (l : List QueuedAlert) :
    ∀ rem ex,
      (scanLoop ttl now active l none rem ex =
        ⟨none, rem ++ l.filter (fun c => !isStale ttl now c),
          ex ++ l.filter (isStale ttl now)⟩ ∧
        (∀ c ∈ l, isStale ttl now c = false →
          lookupKey c.alert.service_name active ≠ none))
      ∨
      (∃ e pre post,
        isStale ttl now e = false ∧
        lookupKey e.alert.service_name active = none ∧
        l.filter (fun c => !isStale ttl now c) = pre ++ e :: post ∧
        (∀ c ∈ pre, lookupKey c.alert.service_name active ≠ none) ∧
        scanLoop ttl now active l none rem ex =
          ⟨some e, rem ++ pre ++ post, ex ++ l.filter (isStale ttl now)⟩) := by
  induction l with
  | nil => intro rem ex; left; simp [scanLoop]
  | cons c cs ih =>
    intro rem ex
    by_cases hc : now - c.enqueued_at > ttl
    · -- stale head: expired, scan continues with the tail
      rcases ih rem (ex ++ [c]) with ⟨heq, hall⟩ | ⟨e, pre, post, he1, he2, hsplit, hpre, heq⟩
      · left
        constructor
        · simp [scanLoop, hc, isStale, heq]
        · intro d hd hfresh
          rcases hd with _ | hd
          · simp [isStale, hc] at hfresh
          · exact hall d (by assumption) hfresh
      · right
        refine ⟨e, pre, post, he1, he2, ?_, hpre, ?_⟩
        · have hcS : isStale ttl now c = true := by simp [isStale, hc]
          simp [List.filter_cons, hcS, hsplit]
        · simp [scanLoop, hc, isStale, heq]
    · by_cases hfree : lookupKey c.alert.service_name active = none
      · -- fresh head with a free service: elected
        right
        refine ⟨c, [], cs.filter (fun d => !isStale ttl now d), by simp [isStale, hc],
          hfree, by simp [isStale, hc], by simp, ?_⟩
        simp [scanLoop, hc, hfree, isStale, scanLoop_some]
      · -- fresh head, service busy: held aside
        rcases ih (rem ++ [c]) ex with ⟨heq, hall⟩ | ⟨e, pre, post, he1, he2, hsplit, hpre, heq⟩
        · left
          constructor
          · simp [scanLoop, hc, hfree, isStale, heq]
          · intro d hd hfresh
            rcases hd with _ | hd
            · exact hfree
            · exact hall d (by assumption) hfresh
        · right
          refine ⟨e, c :: pre, post, he1, he2, ?_, ?_, ?_⟩
          · have hcF : isStale ttl now c = false := by simp [isStale, hc]
            simp [List.filter_cons, hcF, hsplit]
          · intro d hd
            rcases hd with _ | hd
            · exact hfree
            · exact hpre d (by assumption)
          · simp [scanLoop, hc, hfree, isStale, heq]

theorem QueuedAlert.not_lt_self (a : QueuedAlert) : ¬ a.lt a := by
  rintro (h | ⟨h, h'⟩)
  · exact absurd h (Nat.lt_irrefl _)
  · exact absurd h' (lt_irrefl _)

theorem QueuedAlert.le_iff_not_lt (a b : QueuedAlert) : a.le b ↔ ¬ b.lt a := by
  constructor
  · rintro (h | ⟨h, h'⟩)
    · rintro (g | ⟨g, g'⟩)
      · exact absurd (h.trans g) (Nat.lt_irrefl _)
      · exact absurd (g ▸ h) (Nat.lt_irrefl _)
    · rintro (g | ⟨g, g'⟩)
      · exact absurd (h ▸ g) (Nat.lt_irrefl _)
      · exact absurd g' (not_lt.mpr h')
  · intro h
    rcases Nat.lt_trichotomy a.priority_rank b.priority_rank with g | g | g
    · exact Or.inl g
    · refine Or.inr ⟨g, ?_⟩
      by_contra he
      push_neg at he
      exact h (Or.inr ⟨g.symm, he⟩)
    · exact absurd (show b.lt a from Or.inl g) h

/-- C3: priority ordering of the queue. `_priority_rank` maps P1→1, P2→2,
P3→3, P4→4 and no priority→99; the heap comparison is the lexicographic
order on `(priority_rank, enqueued_at)` (lower rank wins, FIFO on ties);
and the alert elected by the next-dispatch scan is minimal in that order
among the queued candidates that are fresh and whose service is free, so no
such candidate strictly precedes it. -/
theorem queue_priority_fifo_order :
    (priority_rank (some .P1) = 1 ∧ priority_rank (some .P2) = 2 ∧
      priority_rank (some .P3) = 3 ∧ priority_rank (some .P4) = 4 ∧
      priority_rank none = 99)
    ∧ (∀ a b : QueuedAlert, QueuedAlert.le a b ↔ ¬ QueuedAlert.lt b a)
    ∧ (∀ (s : IntakeState) (now : ℚ) (e : QueuedAlert),
        (scanLoop s.queue_ttl_seconds now s.active_services
            (List.insertionSort QueuedAlert.le s.queue) none [] []).eligible = some e →
        (∀ c ∈ s.queue, isStale s.queue_ttl_seconds now c = false →
            lookupKey c.alert.service_name s.active_services = none → ¬ c.lt e)
        ∧ (s.queue ≠ [] → s.active_count < s.max_concurrent →
            (dispatch_next s now).tasks = e.alert :: s.tasks)) := by
  refine ⟨⟨rfl, rfl, rfl, rfl, rfl⟩, QueuedAlert.le_iff_not_lt, ?_⟩
  intro s now e helig
  have hsorted : List.Sorted QueuedAlert.le (List.insertionSort QueuedAlert.le s.queue) :=
    List.sorted_insertionSort _ _
  rcases scanLoop_none s.queue_ttl_seconds now s.active_services
      (List.insertionSort QueuedAlert.le s.queue) [] []
    with ⟨heq, _⟩ | ⟨e', pre, post, hf, hfree, hsplit, hpre, heq⟩
  · rw [heq] at helig
    exact absurd helig (by simp)
  · rw [heq] at helig
    have hee : e' = e := by simpa using helig
    subst hee
    constructor
    · intro c hc hcfresh hcfree
      have hcmem : c ∈ List.insertionSort QueuedAlert.le s.queue :=
        ((List.perm_insertionSort QueuedAlert.le s.queue).mem_iff).mpr hc
      have hcf : c ∈ (List.insertionSort QueuedAlert.le s.queue).filter
          (fun d => !isStale s.queue_ttl_seconds now d) := by
        rw [List.mem_filter]
        exact ⟨hcmem, by simp [hcfresh]⟩
      rw [hsplit] at hcf
      have hsorted_f : List.Pairwise QueuedAlert.le (pre ++ e' :: post) := by
        rw [← hsplit]
        exact hsorted.filter _
      rcases List.mem_append.mp hcf with hcpre | hcpost
      · exact absurd hcfree (hpre c hcpre)
      · rcases List.mem_cons.mp hcpost with rfl | hcpost
        · exact QueuedAlert.not_lt_self _
        · have hle : QueuedAlert.le e' c :=
            (List.pairwise_cons.mp (List.pairwise_append.mp hsorted_f).2.1).1 c hcpost
          exact (QueuedAlert.le_iff_not_lt e' c).mp hle
    · intro hq hcnt
      simp [dispatch_next, hq, hcnt.not_le, heq]

/-- Witness for C3: with `max_concurrent = 1`, a P4 alert enqueued at time 0
and a P1 alert enqueued at time 1, the completion scan dispatches the P1
alert first. -/
theorem queue_priority_fifo_order_witness :
    (dispatch_next
      { initState 1 600 with
        queue := [⟨⟨"low", "svc-a", some .P4⟩, "t1", 0, 4⟩,
                  ⟨⟨"crit", "svc-b", some .P1⟩, "t2", 1, 1⟩] } 2).tasks =
      [⟨"crit", "svc-b", some .P1⟩] :=
  ((queue_priority_fifo_order.2.2
      { initState 1 600 with
        queue := [⟨⟨"low", "svc-a", some .P4⟩, "t1", 0, 4⟩,
                  ⟨⟨"crit", "svc-b", some .P1⟩, "t2", 1, 1⟩] }
      2 ⟨⟨"crit", "svc-b", some .P1⟩, "t2", 1, 1⟩
      (by norm_num [scanLoop, List.insertionSort, List.orderedInsert, QueuedAlert.le,
        lookupKey, isStale, initState, Option.some_ne_none])).2)
    (by simp [initState]) (by norm_num [initState])

/-- A concrete intake state for exercising the next-dispatch scan: a fresh
P1 alert (enqueued at 650) ahead of a stale P4 alert (enqueued at 0), with
TTL 600, no active runs, `max_concurrent = 3`. At `now = 700` the P1 alert
is elected and the P4 alert's age (700) exceeds the TTL. -/
def c4State : IntakeState :=
  { initState 3 600 with
    known_incidents := ["stale-1", "fresh-1"]
    queue := [⟨⟨"fresh-1", "svc-a", some .P1⟩, "t1", 650, 1⟩,
              ⟨⟨"stale-1", "svc-b", some .P4⟩, "t2", 0, 4⟩] }

/-- Counterexample to C4 as stated: in `c4State` at `now = 700` the scan
elects the fresh P1 alert first, yet it does NOT stop there — the stale P4
candidate ordered after the elected one is still examined and expired
(expired counter bumped, entry dropped from the queue and from
`known_incidents`), instead of remaining queued unchanged. -/
theorem dispatch_scan_stops_after_election_counterexample :
    (dispatch_next c4State 700).tasks = [⟨"fresh-1", "svc-a", some .P1⟩]
    ∧ (dispatch_next c4State 700).alerts_expired = 1
    ∧ (dispatch_next c4State 700).queue = []
    ∧ "stale-1" ∉ (dispatch_next c4State 700).known_incidents := by
  norm_num [dispatch_next, scanLoop, List.insertionSort, List.orderedInsert,
    QueuedAlert.le, lookupKey, setKey, isStale, initState, c4State, Option.some_ne_none,
    List.cons_ne_nil]
  decide

/-- C4 (amended): the next-dispatch scan pops candidates in priority/FIFO
order; every candidate whose age strictly exceeds the TTL is discarded
(removed from `known_incidents`, expired counter bumped, queue entry
dropped) — including candidates ordered after the elected one, because the
scan keeps examining the rest of the heap after electing; the first
non-expired candidate whose service is free is elected; the non-expired,
non-elected candidates (exactly those) are restored to the queue. -/
theorem dispatch_next_scan_behavior (s : IntakeState) (now : ℚ)
    (hq : s.queue ≠ []) (hcnt : s.active_count < s.max_concurrent) :
    (scanLoop s.queue_ttl_seconds now s.active_services
        (List.insertionSort QueuedAlert.le s.queue) none [] []).expired =
      (List.insertionSort QueuedAlert.le s.queue).filter (isStale s.queue_ttl_seconds now)
    ∧ (dispatch_next s now).alerts_expired = s.alerts_expired +
        ((List.insertionSort QueuedAlert.le s.queue).filter
          (isStale s.queue_ttl_seconds now)).length
    ∧ (dispatch_next s now).known_incidents =
        ((List.insertionSort QueuedAlert.le s.queue).filter
          (isStale s.queue_ttl_seconds now)).foldl
          (fun k c => k.erase c.alert.incident_id) s.known_incidents
    ∧ (dispatch_next s now).queue =
        (scanLoop s.queue_ttl_seconds now s.active_services
          (List.insertionSort QueuedAlert.le s.queue) none [] []).remaining
    ∧ (∀ e, (scanLoop s.queue_ttl_seconds now s.active_services
          (List.insertionSort QueuedAlert.le s.queue) none [] []).eligible = some e →
        isStale s.queue_ttl_seconds now e = false ∧
        lookupKey e.alert.service_name s.active_services = none ∧
        ∃ pre post,
          (List.insertionSort QueuedAlert.le s.queue).filter
            (fun c => !isStale s.queue_ttl_seconds now c) = pre ++ e :: post ∧
          (∀ c ∈ pre, lookupKey c.alert.service_name s.active_services ≠ none) ∧
          (scanLoop s.queue_ttl_seconds now s.active_services
            (List.insertionSort QueuedAlert.le s.queue) none [] []).remaining = pre ++ post)
    ∧ ((scanLoop s.queue_ttl_seconds now s.active_services
          (List.insertionSort QueuedAlert.le s.queue) none [] []).eligible = none →
        (scanLoop s.queue_ttl_seconds now s.active_services
          (List.insertionSort QueuedAlert.le s.queue) none [] []).remaining =
          (List.insertionSort QueuedAlert.le s.queue).filter
            (fun c => !isStale s.queue_ttl_seconds now c) ∧
        (dispatch_next s now).tasks = s.tasks) := by
  rcases scanLoop_none s.queue_ttl_seconds now s.active_services
      (List.insertionSort QueuedAlert.le s.queue) [] []
    with ⟨heq, hall⟩ | ⟨e', pre, post, hf, hfree, hsplit, hpre, heq⟩
  · refine ⟨by simp [heq], ?_, ?_, ?_, ?_, ?_⟩
    · simp [dispatch_next, hq, hcnt.not_le, heq]
    · simp [dispatch_next, hq, hcnt.not_le, heq]
    · simp [dispatch_next, hq, hcnt.not_le, heq]
    · intro e he
      rw [heq] at he
      exact absurd he (by simp)
    · intro _
      refine ⟨by simp [heq], ?_⟩
      simp [dispatch_next, hq, hcnt.not_le, heq]
  · refine ⟨by simp [heq], ?_, ?_, ?_, ?_, ?_⟩
    · simp [dispatch_next, hq, hcnt.not_le, heq]
    · simp [dispatch_next, hq, hcnt.not_le, heq]
    · simp [dispatch_next, hq, hcnt.not_le, heq]
    · intro e he
      rw [heq] at he
      have hee : e' = e := by simpa using he
      subst hee
      exact ⟨hf, hfree, pre, post, hsplit, hpre, by simp [heq]⟩
    · intro he
      rw [heq] at he
      exact absurd he (by simp)

/-- Witness for C4's amended theorem: applied to `c4State` at `now = 700`
(queue nonempty, below the concurrency cap), the queue after the scan is
exactly the scan's `remaining` list. -/
theorem dispatch_next_scan_behavior_witness :
    c4State.queue ≠ [] ∧ c4State.active_count < c4State.max_concurrent ∧
    (dispatch_next c4State 700).queue =
      (scanLoop c4State.queue_ttl_seconds 700 c4State.active_services
        (List.insertionSort QueuedAlert.le c4State.queue) none [] []).remaining :=
  ⟨by simp [c4State, initState], by norm_num [c4State, initState],
   (dispatch_next_scan_behavior c4State 700 (by simp [c4State, initState])
      (by norm_num [c4State, initState])).2.2.2.1⟩

theorem not_mem_foldl_erase (x : String) (l : List QueuedAlert) :
    ∀ k : List String, x ∉ k →
      x ∉ l.foldl (fun k c => k.erase c.alert.incident_id) k := by
  induction l with
  | nil => intro k hk; simpa using hk
  | cons c cs ih =>
    intro k hk
    simp only [List.foldl_cons]
    exact ih _ (fun hmem => hk (List.mem_of_mem_erase hmem))

theorem mem_queue_not_mem_foldl_erase (l : List QueuedAlert) :
    ∀ k : List String, k.Nodup → ∀ q ∈ l, q.alert.incident_id ∉
      l.foldl (fun k c => k.erase c.alert.incident_id) k := by
  induction l with
  | nil => simp
  | cons c cs ih =>
    intro k hnd q hq
    simp only [List.foldl_cons]
    rcases List.mem_cons.mp hq with rfl | hq'
    · exact not_mem_foldl_erase _ cs _ (hnd.not_mem_erase)
    · exact ih (k.erase c.alert.incident_id) (hnd.erase _) q hq'

/-- C7: shutdown sets `shutting_down` (and no transition ever resets it),
clears the queue — each queued incident is dropped from `known_incidents`
and the queue-depth gauge is decremented once per entry, so the queue depth
is 0 afterwards — and any subsequent submit returns `rejected` with the
state unchanged. -/
theorem shutdown_clears_queue_and_rejects (s s' : IntakeState) (a : PagerDutyAlert)
    (tr : String) (now : ℚ) :
    ((shutdown s).shutting_down = true
     ∧ (shutdown s).queue = []
     ∧ (shutdown s).queue_depth_gauge = s.queue_depth_gauge - s.queue.length
     ∧ (s.known_incidents.Nodup →
         ∀ q ∈ s.queue, q.alert.incident_id ∉ (shutdown s).known_incidents))
    ∧ (Step s s' → s.shutting_down = true → s'.shutting_down = true)
    ∧ (s.shutting_down = true → submit s a tr now = (.rejected, s)) := by
  refine ⟨⟨rfl, rfl, rfl, ?_⟩, ?_, ?_⟩
  · intro hnd q hq
    exact mem_queue_not_mem_foldl_erase s.queue s.known_incidents hnd q hq
  · intro hstep htrue
    cases hstep with
    | ofSubmit a tr now => simp [submit, htrue]
    | ofComplete a now h => simp [on_complete, htrue]
    | ofShutdown => rfl
  · intro htrue
    simp [submit, htrue]

/-- A concrete pre-shutdown state for the C7 witness: one queued alert,
its incident known, queue-depth gauge at 1. -/
def c7State : IntakeState :=
  { initState 2 600 with
    known_incidents := ["inc-q"]
    queue := [⟨⟨"inc-q", "svc-q", none⟩, "t0", 0, 99⟩]
    queue_depth_gauge := 1
    alerts_queued := 1 }

/-- Witness for C7 on `c7State`: after shutdown the queue is empty, the
queued incident is gone from `known_incidents`, and a later submit is
rejected without any state change (so `shutting_down` stays true). -/
theorem shutdown_clears_queue_and_rejects_witness :
    (shutdown c7State).queue = []
    ∧ (∀ q ∈ c7State.queue, q.alert.incident_id ∉ (shutdown c7State).known_incidents)
    ∧ submit (shutdown c7State) ⟨"new", "svc", none⟩ "t9" 5 =
        (.rejected, shutdown c7State)
    ∧ (submit (shutdown c7State) ⟨"new", "svc", none⟩ "t9" 5).2.shutting_down = true :=
  ⟨(shutdown_clears_queue_and_rejects c7State c7State ⟨"new", "svc", none⟩ "t9" 5).1.2.1,
   (shutdown_clears_queue_and_rejects c7State c7State ⟨"new", "svc", none⟩ "t9" 5).1.2.2.2
     (by decide),
   (shutdown_clears_queue_and_rejects (shutdown c7State) c7State ⟨"new", "svc", none⟩
      "t9" 5).2.2 rfl,
   (shutdown_clears_queue_and_rejects (shutdown c7State)
      (submit (shutdown c7State) ⟨"new", "svc", none⟩ "t9" 5).2 ⟨"new", "svc", none⟩
      "t9" 5).2.1 (Step.ofSubmit (shutdown c7State) ⟨"new", "svc", none⟩ "t9" 5) rfl⟩

theorem lookupKey_setKey_self {α : Type} (k : String) (v : α) (l : List (String × α)) :
    lookupKey k (setKey k v l) = some v := by
  induction l with
  | nil => simp [setKey, lookupKey]
  | cons p rest ih =>
    obtain ⟨k', v'⟩ := p
    by_cases h : k' = k
    · simp [setKey, lookupKey, h]
    · simp [setKey, lookupKey, h, ih]

theorem lookupKey_setKey_ne {α : Type} {k k' : String} (v : α) (l : List (String × α))
    (h : k' ≠ k) : lookupKey k (setKey k' v l) = lookupKey k l := by
  induction l with
  | nil => simp [setKey, lookupKey, h]
  | cons p rest ih =>
    obtain ⟨k₀, v₀⟩ := p
    by_cases h0 : k₀ = k'
    · subst h0
      simp [setKey, lookupKey, h]
    · by_cases hk : k₀ = k <;> simp [setKey, lookupKey, h0, hk, Ne.symm h, ih]

theorem lookupKey_popKey_ne {α : Type} {k k' : String} (l : List (String × α))
    (h : k' ≠ k) : lookupKey k (popKey k' l) = lookupKey k l := by
  induction l with
  | nil => simp [popKey]
  | cons p rest ih =>
    obtain ⟨k₀, v₀⟩ := p
    by_cases h0 : k₀ = k'
    · subst h0
      simp [popKey, lookupKey, h]
    · by_cases hk : k₀ = k <;> simp [popKey, lookupKey, h0, hk, Ne.symm h, ih]

theorem map_ne_of_mem_erase (f : PagerDutyAlert → String) (l : List PagerDutyAlert)
    (hnd : (l.map f).Nodup) (a : PagerDutyAlert) (ha : a ∈ l) (b : PagerDutyAlert)
    (hb : b ∈ l.erase a) : f b ≠ f a := by
  obtain ⟨l₁, l₂, hn, heq, her⟩ := List.exists_erase_eq ha
  rw [heq, List.map_append, List.map_cons] at hnd
  rw [her] at hb
  rcases List.nodup_append.mp hnd with ⟨h1, h2, hdisj⟩
  intro hfeq
  rcases List.mem_append.mp hb with hb1 | hb2
  · exact hdisj (List.mem_map_of_mem f hb1) (hfeq ▸ List.mem_cons_self _ _)
  · exact (List.nodup_cons.mp h2).1 (hfeq ▸ List.mem_map_of_mem f hb2)

theorem length_filter_le_one_of_nodup_map (f : PagerDutyAlert → String)
    (l : List PagerDutyAlert) (hnd : (l.map f).Nodup) (c : String) :
    (l.filter (fun x => f x = c)).length ≤ 1 := by
  induction l with
  | nil => simp
  | cons a rest ih =>
    rw [List.map_cons, List.nodup_cons] at hnd
    by_cases hfa : f a = c
    · have hrest : rest.filter (fun x => decide (f x = c)) = [] := by
        rw [List.filter_eq_nil_iff]
        intro b hb
        simp only [decide_eq_true_eq]
        intro hbc
        exact hnd.1 ((hfa ▸ hbc.symm : f a = f b) ▸ List.mem_map_of_mem f hb)
      simp [List.filter_cons, hfa, hrest]
    · simpa [List.filter_cons, hfa] using ih hnd.2

/-- The inductive invariant of the intake pipeline: run tasks carry pairwise
distinct services, every running service is registered in
`active_services`, `active_count` counts the run tasks, and it never
exceeds `max_concurrent`. -/
def Inv (s : IntakeState) : Prop :=
  (s.tasks.map (·.service_name)).Nodup
  ∧ (∀ a ∈ s.tasks, lookupKey a.service_name s.active_services ≠ none)
  ∧ s.active_count = s.tasks.length
  ∧ s.active_count ≤ s.max_concurrent

theorem Inv_submit (s : IntakeState) (a : PagerDutyAlert) (tr : String) (now : ℚ)
    (h : Inv s) : Inv (submit s a tr now).2 := by
  obtain ⟨h1, h2, h3, h4⟩ := h
  by_cases hsd : s.shutting_down
  · simpa [submit, hsd] using ⟨h1, h2, h3, h4⟩
  by_cases hmem : a.incident_id ∈ s.known_incidents
  · simp only [submit, hsd, Bool.false_eq_true, if_false, hmem, if_true]
    exact ⟨h1, h2, h3, h4⟩
  by_cases hdisp : lookupKey a.service_name s.active_services = none ∧
      s.active_count < s.max_concurrent
  · simp only [submit, hsd, Bool.false_eq_true, if_false, hmem, if_true, hdisp,
      and_self]
    have hnotin : ∀ b ∈ s.tasks, b.service_name ≠ a.service_name := by
      intro b hb hbe
      exact (h2 b hb) (hbe ▸ hdisp.1)
    refine ⟨?_, ?_, ?_, ?_⟩
    · rw [List.map_cons, List.nodup_cons]
      refine ⟨?_, h1⟩
      intro hmm
      obtain ⟨b, hb, hbe⟩ := List.mem_map.mp hmm
      exact hnotin b hb hbe
    · intro b hb
      rcases List.mem_cons.mp hb with rfl | hb'
      · rw [lookupKey_setKey_self]
        simp
      · rw [lookupKey_setKey_ne _ _ (fun hne => hnotin b hb' hne.symm)]
        exact h2 b hb'
    · simp only [List.length_cons]
      push_cast
      omega
    · show s.active_count + 1 ≤ s.max_concurrent
      have := hdisp.2
      omega
  · simp only [submit, hsd, Bool.false_eq_true, if_false, hmem, if_true, hdisp]
    exact ⟨h1, h2, h3, h4⟩

theorem Inv_dispatch_next (s : IntakeState) (now : ℚ) (h : Inv s) :
    Inv (dispatch_next s now) := by
  obtain ⟨h1, h2, h3, h4⟩ := h
  by_cases hg : s.queue = [] ∨ s.max_concurrent ≤ s.active_count
  · simpa [dispatch_next, hg] using ⟨h1, h2, h3, h4⟩
  have hcnt : s.active_count < s.max_concurrent := by
    rcases not_or.mp hg with ⟨_, hn⟩
    exact lt_of_not_le hn
  rcases scanLoop_none s.queue_ttl_seconds now s.active_services
      (List.insertionSort QueuedAlert.le s.queue) [] []
    with ⟨heq, _⟩ | ⟨e, pre, post, hf, hfree, hsplit, hpre, heq⟩
  · simp only [dispatch_next, hg, if_false, heq]
    exact ⟨h1, h2, h3, h4⟩
  · simp only [dispatch_next, hg, if_false, heq]
    have hnotin : ∀ b ∈ s.tasks, b.service_name ≠ e.alert.service_name := by
      intro b hb hbe
      exact (h2 b hb) (hbe ▸ hfree)
    refine ⟨?_, ?_, ?_, ?_⟩
    · rw [List.map_cons, List.nodup_cons]
      refine ⟨?_, h1⟩
      intro hmm
      obtain ⟨b, hb, hbe⟩ := List.mem_map.mp hmm
      exact hnotin b hb hbe
    · intro b hb
      rcases List.mem_cons.mp hb with rfl | hb'
      · rw [lookupKey_setKey_self]
        simp
      · rw [lookupKey_setKey_ne _ _ (fun hne => hnotin b hb' hne.symm)]
        exact h2 b hb'
    · simp only [List.length_cons]
      push_cast
      omega
    · show s.active_count + 1 ≤ s.max_concurrent
      omega

theorem Inv_on_complete (s : IntakeState) (a : PagerDutyAlert) (now : ℚ)
    (ha : a ∈ s.tasks) (h : Inv s) : Inv (on_complete s a now) := by
  obtain ⟨h1, h2, h3, h4⟩ := h
  have hlen : 0 < s.tasks.length := List.length_pos.mpr (List.ne_nil_of_mem ha)
  have hinv1 : Inv { s with
      active_count := s.active_count - 1
      known_incidents := s.known_incidents.erase a.incident_id
      active_services := popKey a.service_name s.active_services
      tasks := s.tasks.erase a } := by
    refine ⟨?_, ?_, ?_, ?_⟩
    · exact h1.sublist ((s.tasks.erase_sublist a).map _)
    · intro b hb
      have hne : b.service_name ≠ a.service_name :=
        map_ne_of_mem_erase (·.service_name) s.tasks h1 a ha b hb
      rw [lookupKey_popKey_ne _ (fun hne' => hne hne'.symm)]
      exact h2 b ((s.tasks.erase_sublist a).mem hb)
    · rw [List.length_erase_of_mem ha]
      push_cast
      omega
    · show s.active_count - 1 ≤ s.max_concurrent
      omega
  simp only [on_complete]
  by_cases hsd : s.shutting_down
  · simpa [hsd] using hinv1
  · simpa [hsd] using Inv_dispatch_next _ now hinv1

theorem Inv_shutdown (s : IntakeState) (h : Inv s) : Inv (shutdown s) := by
  obtain ⟨h1, h2, h3, h4⟩ := h
  exact ⟨h1, h2, h3, h4⟩

theorem Inv_reachable (maxC : Int) (ttl : ℚ) (s : IntakeState)
    (hpos : 0 ≤ maxC) (hreach : Reachable maxC ttl s) : Inv s := by
  induction hreach with
  | init => exact ⟨List.nodup_nil, by simp [initState], rfl, hpos⟩
  | step hr hstep ih =>
    cases hstep with
    | ofSubmit a tr now => exact Inv_submit _ a tr now ih
    | ofComplete a now hmem => exact Inv_on_complete _ a now hmem ih
    | ofShutdown => exact Inv_shutdown _ ih

/-- C2: in every state reachable by submit/completion/shutdown events, each
service name has at most one active run task, and the active-run counter
stays within `0 ≤ active_count ≤ max_concurrent`. -/
theorem intake_service_serialization_and_cap (maxC : Int) (ttl : ℚ) (s : IntakeState)
    (hpos : 0 < maxC) (hreach : Reachable maxC ttl s) :
    (∀ svc : String, (s.tasks.filter (fun a => a.service_name = svc)).length ≤ 1)
    ∧ 0 ≤ s.active_count ∧ s.active_count ≤ s.max_concurrent := by
  obtain ⟨h1, _, h3, h4⟩ := Inv_reachable maxC ttl s (le_of_lt hpos) hreach
  refine ⟨?_, ?_, h4⟩
  · intro svc
    exact length_filter_le_one_of_nodup_map _ s.tasks h1 svc
  · rw [h3]
    positivity

/-- Witness for C2: after submitting one alert to a fresh pipeline with
`max_concurrent = 3`, the invariants hold in the reached state. -/
theorem intake_service_serialization_and_cap_witness :
    (∀ svc : String,
      (((submit (initState 3 600) ⟨"inc-1", "api", some .P2⟩ "t0" 0).2).tasks.filter
        (fun a => a.service_name = svc)).length ≤ 1)
    ∧ 0 ≤ ((submit (initState 3 600) ⟨"inc-1", "api", some .P2⟩ "t0" 0).2).active_count
    ∧ ((submit (initState 3 600) ⟨"inc-1", "api", some .P2⟩ "t0" 0).2).active_count ≤
        ((submit (initState 3 600) ⟨"inc-1", "api", some .P2⟩ "t0" 0).2).max_concurrent :=
  intake_service_serialization_and_cap 3 600 _ (by norm_num)
    (Reachable.step Reachable.init
      (Step.ofSubmit (initState 3 600) ⟨"inc-1", "api", some .P2⟩ "t0" 0))

theorem lookupKey_eq_none_of_not_mem_keys {α : Type} (k : String)
    (l : List (String × α)) (h : k ∉ l.map Prod.fst) : lookupKey k l = none := by
  induction l with
  | nil => rfl
  | cons p rest ih =>
    obtain ⟨k₀, v₀⟩ := p
    simp only [List.map_cons, List.mem_cons] at h
    push_neg at h
    simp [lookupKey, Ne.symm h.1, ih h.2]

theorem lookupKey_popKey_self {α : Type} (k : String) (l : List (String × α))
    (h : (l.map Prod.fst).Nodup) : lookupKey k (popKey k l) = none := by
  induction l with
  | nil => rfl
  | cons p rest ih =>
    obtain ⟨k₀, v₀⟩ := p
    rw [List.map_cons, List.nodup_cons] at h
    by_cases hk : k₀ = k
    · subst hk
      simp only [popKey, if_pos rfl]
      exact lookupKey_eq_none_of_not_mem_keys _ _ h.1
    · simp [popKey, lookupKey, hk, ih h.2]

/-- The fields of `state.RuntimeState` read or written by `_process_alert`'s
hourly-budget pre-check. -/
structure RuntimeStateBudget where
  agent_runs_completed : Int
  active_incidents : List (String × ℚ)
  hourly_token_log : List (ℚ × Int)
deriving DecidableEq

/-- `main._tokens_last_hour`: sum the tokens of the rolling log entries whose
timestamp is at least `now - 3600`. -/
def tokens_last_hour (log : List (ℚ × Int)) (now : ℚ) : Int :=
  ((log.filter (fun p => now - 3600 ≤ p.1)).map Prod.snd).sum

/-- `main._is_hourly_budget_exhausted`: false when the budget is
non-positive, else whether the last hour's tokens reach it. -/
def is_hourly_budget_exhausted (max_tokens_per_hour : Int) (log : List (ℚ × Int))
    (now : ℚ) : Bool :=
  if max_tokens_per_hour ≤ 0 then false
  else decide (max_tokens_per_hour ≤ tokens_last_hour log now)

/-- An outbound PagerDuty REST call made by `_escalate_budget_exhausted`:
the incident note, and the incident PUT carrying `escalation_level`. -/
inductive PDRequest
  | note (incident_id : String)
  | set_escalation_level (incident_id : String) (level : Int)
deriving DecidableEq

/-- The `escalation_level` value in the PUT body of
`_escalate_budget_exhausted` (main.py): the constant 2. -/
def escalation_level_sent : Int := 2

/-- The budget branch of `main._process_alert`: when the hourly budget is
exhausted, bump `agent_runs_completed`, drop the incident from the active
map, skip the agent (second component false), and emit the note + escalation
PUT; otherwise leave the state alone and run the agent. -/
def process_alert_budget_precheck (max_tokens_per_hour : Int) (st : RuntimeStateBudget)
    (alert : PagerDutyAlert) (now : ℚ) : RuntimeStateBudget × Bool × List PDRequest :=
  if is_hourly_budget_exhausted max_tokens_per_hour st.hourly_token_log now then
    ({ st with
        agent_runs_completed := st.agent_runs_completed + 1
        active_incidents := popKey alert.incident_id st.active_incidents },
     false,
     [.note alert.incident_id,
      .set_escalation_level alert.incident_id escalation_level_sent])
  else (st, true, [])

/-- Counterexample to C5 as stated: the escalation PUT sent on budget
exhaustion does not advance the incident's escalation level by one — it
always carries the constant level 2, so for an incident currently at level
2 the sent level is 2, not 3. -/
theorem budget_escalation_not_advance_by_one_counterexample :
    escalation_level_sent = 2
    ∧ ¬ (∀ current_level : Int, escalation_level_sent = current_level + 1) := by
  refine ⟨rfl, fun h => ?_⟩
  have h2 := h 2
  norm_num [escalation_level_sent] at h2

/-- C5 (amended): before a run starts, the tokens of `hourly_token_log`
entries within the last 3600 s are summed; when `max_tokens_per_hour > 0`
and that sum reaches it, the agent is not run: `agent_runs_completed` is
still bumped, the incident leaves the active map, and a budget-exhausted
note plus an escalation PUT carrying the constant level 2 are sent for the
incident. -/
theorem hourly_budget_precheck (maxPH : Int) (st : RuntimeStateBudget)
    (alert : PagerDutyAlert) (now : ℚ) (hpos : 0 < maxPH)
    (hsum : maxPH ≤ ((st.hourly_token_log.filter
      (fun p => now - 3600 ≤ p.1)).map Prod.snd).sum) :
    tokens_last_hour st.hourly_token_log now =
      ((st.hourly_token_log.filter (fun p => now - 3600 ≤ p.1)).map Prod.snd).sum
    ∧ is_hourly_budget_exhausted maxPH st.hourly_token_log now = true
    ∧ process_alert_budget_precheck maxPH st alert now =
      ({ st with
          agent_runs_completed := st.agent_runs_completed + 1
          active_incidents := popKey alert.incident_id st.active_incidents },
       false,
       [.note alert.incident_id, .set_escalation_level alert.incident_id 2])
    ∧ ((st.active_incidents.map Prod.fst).Nodup →
        lookupKey alert.incident_id
          (process_alert_budget_precheck maxPH st alert now).1.active_incidents = none) := by
  have hex : is_hourly_budget_exhausted maxPH st.hourly_token_log now = true := by
    unfold is_hourly_budget_exhausted
    rw [if_neg hpos.not_le]
    exact decide_eq_true hsum
  refine ⟨rfl, hex, ?_, ?_⟩
  · simp [process_alert_budget_precheck, hex, escalation_level_sent]
  · intro hnd
    simp only [process_alert_budget_precheck, hex, if_true]
    exact lookupKey_popKey_self _ _ hnd

/-- Witness for C5's amended theorem: budget 1000, one log entry worth 1200
tokens recorded now — the pre-check fires, the run is skipped, and the
incident is removed from the active map. -/
theorem hourly_budget_precheck_witness :
    is_hourly_budget_exhausted 1000 [((0 : ℚ), 1200)] 0 = true
    ∧ process_alert_budget_precheck 1000 ⟨5, [("inc-7", 0)], [(0, 1200)]⟩
        ⟨"inc-7", "api", none⟩ 0 =
      ({ (⟨5, [("inc-7", 0)], [(0, 1200)]⟩ : RuntimeStateBudget) with
          agent_runs_completed :=
            (⟨5, [("inc-7", 0)], [(0, 1200)]⟩ : RuntimeStateBudget).agent_runs_completed + 1
          active_incidents := popKey "inc-7"
            (⟨5, [("inc-7", 0)], [(0, 1200)]⟩ : RuntimeStateBudget).active_incidents },
       false, [.note "inc-7", .set_escalation_level "inc-7" 2])
    ∧ lookupKey "inc-7"
        (process_alert_budget_precheck 1000 ⟨5, [("inc-7", 0)], [(0, 1200)]⟩
          ⟨"inc-7", "api", none⟩ 0).1.active_incidents = none :=
  ⟨(hourly_budget_precheck 1000 ⟨5, [("inc-7", 0)], [(0, 1200)]⟩ ⟨"inc-7", "api", none⟩ 0
      (by norm_num) (by norm_num [List.filter])).2.1,
   (hourly_budget_precheck 1000 ⟨5, [("inc-7", 0)], [(0, 1200)]⟩ ⟨"inc-7", "api", none⟩ 0
      (by norm_num) (by norm_num [List.filter])).2.2.1,
   (hourly_budget_precheck 1000 ⟨5, [("inc-7", 0)], [(0, 1200)]⟩ ⟨"inc-7", "api", none⟩ 0
      (by norm_num) (by norm_num [List.filter])).2.2.2 (by decide)⟩

/-- The auth-token gate of `main.receive_gcp_webhook`: reject (HTTP 401)
exactly when an ops token is configured, the `auth_token` query parameter is
non-empty, and the constant-time comparison fails. -/
def receive_gcp_webhook_auth_rejects (ops_auth_token auth_token : String) : Bool :=
  if ops_auth_token ≠ "" ∧ auth_token ≠ "" then !(decide (auth_token = ops_auth_token))
  else false

/-- C10: the GCP webhook returns 401 iff a token is configured, the request
supplies a non-empty `auth_token`, and it differs from the configured one;
a request omitting the parameter (or passing it empty) is never rejected
for authentication and proceeds to admission. -/
theorem gcp_webhook_auth_gate (t a : String) :
    (receive_gcp_webhook_auth_rejects t a = true ↔ (t ≠ "" ∧ a ≠ "" ∧ a ≠ t))
    ∧ receive_gcp_webhook_auth_rejects t "" = false := by
  constructor
  · by_cases h1 : t = "" <;> by_cases h2 : a = "" <;> by_cases h3 : a = t <;>
      simp [receive_gcp_webhook_auth_rejects, h1, h2, h3]
  · simp [receive_gcp_webhook_auth_rejects]

/-- The configuration fields of `config.Config` read by `agent.run_agent`'s
turn loop. -/
structure AgentConfig where
  max_tokens_per_incident : Int
  llm_model : String
  llm_model_escalation : Option String
  llm_escalation_turn : Nat
deriving DecidableEq

/-- `agent.MAX_TURNS`. -/
def MAX_TURNS : Nat := 20

/-- `agent.MAX_DURATION_SECONDS`. -/
def MAX_DURATION_SECONDS : ℚ := 300

/-- The shape of one LLM chat response: tool calls, final text, or neither
(the empty-response edge case). -/
inductive TurnKind
  | toolCalls
  | finalText (content : String)
  | empty
deriving DecidableEq

/-- The environment of one turn of the loop: the wall-clock time elapsed
since run start when the turn begins, the token usage the LLM reports
(`response.usage`, possibly absent), and the response shape. -/
structure TurnEnv where
  elapsed : ℚ
  usage : Option (Int × Int)
  kind : TurnKind

/-- The run summary, by which of the exits of the turn loop produced it. -/
inductive RunSummary
  | duration_limit (elapsed : ℚ) (turns : Nat)
  | token_budget (used budget : Int) (turns : Nat)
  | final (content : String)
  | empty_response
  | max_turns
deriving DecidableEq

/-- `agent.AgentResult`, restricted to the fields the safety limits govern. -/
structure AgentResult where
  summary : RunSummary
  turns : Nat
  input_tokens : Int
  output_tokens : Int
deriving DecidableEq

/-- The `for turn in range(MAX_TURNS)` loop of `agent.run_agent`, driven by
the environment `env` (one entry per turn index). Per turn, in source
order: two-phase model escalation, the duration gate (strict `elapsed >
MAX_DURATION_SECONDS`), the per-incident token gate
(`max_tokens_per_incident > 0` and `input+output ≥` it), the LLM call with
its usage accounting, then the dispatch on tool calls / final text / empty
response. Exhausting the fuel is the `for`-`else` "max turns" exit. -/
def agent_loop (cfg : AgentConfig) (env : Nat → TurnEnv) :
    Nat → Nat → Int → Int → String → Bool → AgentResult
  | 0, turn, i, o, _, _ => ⟨.max_turns, turn, i, o⟩
  | fuel + 1, turn, i, o, current_model, escalated =>
    let stepModel :=
      if ¬escalated ∧ cfg.llm_model_escalation.isSome ∧ cfg.llm_escalation_turn ≤ turn then
        (cfg.llm_model_escalation.getD current_model, true)
      else (current_model, escalated)
    let e := env turn
    if e.elapsed > MAX_DURATION_SECONDS then
      ⟨.duration_limit e.elapsed (turn + 1), turn + 1, i, o⟩
    else if 0 < cfg.max_tokens_per_incident ∧ cfg.max_tokens_per_incident ≤ i + o then
      ⟨.token_budget (i + o) cfg.max_tokens_per_incident (turn + 1), turn + 1, i, o⟩
    else
      let acc := match e.usage with
        | some u => (i + u.1, o + u.2)
        | none => (i, o)
      match e.kind with
      | .toolCalls => agent_loop cfg env fuel (turn + 1) acc.1 acc.2 stepModel.1 stepModel.2
      | .finalText content => ⟨.final content, turn + 1, acc.1, acc.2⟩
      | .empty => ⟨.empty_response, turn + 1, acc.1, acc.2⟩

/-- `agent.run_agent`: run the turn loop from turn 0 with the primary model
and zero token usage. -/
def run_agent (cfg : AgentConfig) (env : Nat → TurnEnv) : AgentResult :=
  agent_loop cfg env MAX_TURNS 0 0 0 cfg.llm_model false

theorem agent_loop_turns_le (cfg : AgentConfig) (env : Nat → TurnEnv) :
    ∀ fuel turn i o m esc, (agent_loop cfg env fuel turn i o m esc).turns ≤ turn + fuel := by
  intro fuel
  induction fuel with
  | zero =>
    intro turn i o m esc
    simp [agent_loop]
  | succ n ih =>
    intro turn i o m esc
    by_cases hd : (env turn).elapsed > MAX_DURATION_SECONDS
    · simp only [agent_loop, hd, if_true]
      omega
    · by_cases ht : 0 < cfg.max_tokens_per_incident ∧ cfg.max_tokens_per_incident ≤ i + o
      · simp only [agent_loop, hd, if_false, ht, and_self, if_true]
        omega
      · cases hk : (env turn).kind with
        | toolCalls =>
          simp only [agent_loop, hd, if_false, ht, hk]
          exact le_trans (ih (turn + 1) _ _ _ _) (by omega)
        | finalText content =>
          simp only [agent_loop, hd, if_false, ht, hk]
          omega
        | empty =>
          simp only [agent_loop, hd, if_false, ht, hk]
          omega

/-- Counterexample to C6 as stated: with elapsed time exactly 300 s at the
start of the first turn (so `elapsed ≥ MAX_DURATION_SECONDS`), the run does
NOT terminate with a duration-limit summary — the gate is strict (`>`), so
the turn proceeds and the run ends with the model's final text. -/
theorem agent_duration_gate_at_exactly_300_counterexample :
    ((fun _ : Nat => (⟨300, none, .finalText "done"⟩ : TurnEnv)) 0).elapsed =
      MAX_DURATION_SECONDS
    ∧ run_agent ⟨0, "gpt-4o", none, 5⟩ (fun _ => ⟨300, none, .finalText "done"⟩) =
        ⟨.final "done", 1, 0, 0⟩
    ∧ (run_agent ⟨0, "gpt-4o", none, 5⟩
        (fun _ => ⟨300, none, .finalText "done"⟩)).summary ≠ .duration_limit 300 1 := by
  refine ⟨by norm_num [MAX_DURATION_SECONDS], ?_, ?_⟩
  · norm_num [run_agent, agent_loop, MAX_TURNS, MAX_DURATION_SECONDS]
  · norm_num [run_agent, agent_loop, MAX_TURNS, MAX_DURATION_SECONDS]
    decide

/-- C6 (amended): every run performs at most `MAX_TURNS = 20` turns; at the
start of any turn, if elapsed time strictly exceeds
`MAX_DURATION_SECONDS = 300` the run terminates there with a duration-limit
summary, and otherwise, if `max_tokens_per_incident > 0` and
`input + output` tokens have reached it, the run terminates there with a
budget-exceeded summary. -/
theorem agent_loop_turn_duration_token_gates :
    MAX_TURNS = 20 ∧ MAX_DURATION_SECONDS = 300
    ∧ (∀ (cfg : AgentConfig) (env : Nat → TurnEnv),
        (run_agent cfg env).turns ≤ MAX_TURNS)
    ∧ (∀ (cfg : AgentConfig) (env : Nat → TurnEnv) (fuel turn : Nat) (i o : Int)
        (m : String) (esc : Bool),
        (env turn).elapsed > MAX_DURATION_SECONDS →
        agent_loop cfg env (fuel + 1) turn i o m esc =
          ⟨.duration_limit (env turn).elapsed (turn + 1), turn + 1, i, o⟩)
    ∧ (∀ (cfg : AgentConfig) (env : Nat → TurnEnv) (fuel turn : Nat) (i o : Int)
        (m : String) (esc : Bool),
        ¬((env turn).elapsed > MAX_DURATION_SECONDS) →
        0 < cfg.max_tokens_per_incident → cfg.max_tokens_per_incident ≤ i + o →
        agent_loop cfg env (fuel + 1) turn i o m esc =
          ⟨.token_budget (i + o) cfg.max_tokens_per_incident (turn + 1), turn + 1, i, o⟩) := by
  refine ⟨rfl, rfl, ?_, ?_, ?_⟩
  · intro cfg env
    simpa using agent_loop_turns_le cfg env MAX_TURNS 0 0 0 cfg.llm_model false
  · intro cfg env fuel turn i o m esc hd
    simp only [agent_loop, hd, if_true]
  · intro cfg env fuel turn i o m esc hd hpos hle
    simp only [agent_loop, hd, if_false]
    rw [if_pos ⟨hpos, hle⟩]

/-- Witness for C6's amended theorem: a run whose first turn reports
elapsed 301 s terminates immediately with the duration-limit summary; a
turn starting at 10 s with 120 tokens already used against a budget of 100
terminates with the budget summary; and a run over any environment performs
at most 20 turns. -/
theorem agent_loop_turn_duration_token_gates_witness :
    (run_agent ⟨100, "gpt-4o", none, 5⟩ (fun _ => ⟨301, none, .toolCalls⟩)).turns ≤ MAX_TURNS
    ∧ agent_loop ⟨100, "gpt-4o", none, 5⟩ (fun _ => ⟨301, none, .toolCalls⟩) 20 0 0 0
        "gpt-4o" false = ⟨.duration_limit 301 1, 1, 0, 0⟩
    ∧ agent_loop ⟨100, "gpt-4o", none, 5⟩ (fun _ => ⟨10, none, .toolCalls⟩) 20 3 70 50
        "gpt-4o" false = ⟨.token_budget 120 100 4, 4, 70, 50⟩ :=
  ⟨agent_loop_turn_duration_token_gates.2.2.1 ⟨100, "gpt-4o", none, 5⟩ _,
   agent_loop_turn_duration_token_gates.2.2.2.1 ⟨100, "gpt-4o", none, 5⟩
     (fun _ => ⟨301, none, .toolCalls⟩) 19 0 0 0 "gpt-4o" false
     (by norm_num [MAX_DURATION_SECONDS]),
   agent_loop_turn_duration_token_gates.2.2.2.2 ⟨100, "gpt-4o", none, 5⟩
     (fun _ => ⟨10, none, .toolCalls⟩) 19 3 70 50 "gpt-4o" false
     (by norm_num [MAX_DURATION_SECONDS]) (by norm_num) (by norm_num)⟩

/-- Split a character string on `'/'`, keeping empty segments (the component
split underlying `pathlib.PurePosixPath`). -/
def splitSlash : List Char → List (List Char)
  | [] => [[]]
  | c :: cs =>
    if c = '/' then [] :: splitSlash cs
    else
      match splitSlash cs with
      | [] => [[c]]
      | p :: ps => (c :: p) :: ps

/-- `pathlib.Path(s).name` for POSIX paths: the last path component after
dropping empty and `'.'` components (`'..'` is kept, as in pathlib), or the
empty string when there is none. -/
def pathlib_name (s : List Char) : List Char :=
  ((splitSlash s).filter (fun p => decide (p ≠ [] ∧ p ≠ ['.']))).getLastD []

/-- Outcome of `ToolExecutor._write_incident_report`: the JSON error
envelope, or a write of the report at the given path. -/
inductive ReportOutcome
  | error (msg : String)
  | written (path : List Char)
deriving DecidableEq

/-- `ToolExecutor._write_incident_report`, composed with the catch-all of
`ToolExecutor.execute` (which turns any handler exception into a
`{"error": str(e)}` envelope): empty filename or content is an error; a
filename that differs from its own basename is rejected as path traversal;
otherwise `filepath.write_text` runs on `incidents_dir/safe_name`. The
handler has just created `incidents_dir` with `mkdir(parents=True,
exist_ok=True)`, so of the names that survive the basename guard (no `'/'`,
not empty, not `'.'`) the only one denoting an existing directory is `".."`
— the parent of `incidents_dir` — where `write_text` raises
`IsADirectoryError` and the executor returns it as an error envelope,
writing nothing; every other surviving name is written as a regular file. -/
def write_incident_report (incidents_dir filename content : List Char) : ReportOutcome :=
  if filename = [] ∨ content = [] then .error "filename and content are required"
  else if pathlib_name filename ≠ filename then
    .error "Invalid filename (path traversal rejected)"
  else if pathlib_name filename = "..".data then .error "IsADirectoryError"
  else .written (incidents_dir ++ '/' :: pathlib_name filename)

theorem splitSlash_ne_nil (s : List Char) : splitSlash s ≠ [] := by
  cases s with
  | nil => simp [splitSlash]
  | cons c cs =>
    by_cases hc : c = '/'
    · simp [splitSlash, hc]
    · simp only [splitSlash, hc, if_false]
      cases splitSlash cs <;> simp

theorem splitSlash_no_slash (s : List Char) : ∀ p ∈ splitSlash s, '/' ∉ p := by
  induction s with
  | nil =>
    intro p hp
    simp only [splitSlash, List.mem_singleton] at hp
    simp [hp]
  | cons c cs ih =>
    intro p hp
    by_cases hc : c = '/'
    · simp only [splitSlash, hc, if_true, List.mem_cons] at hp
      rcases hp with rfl | hp'
      · simp
      · exact ih p hp'
    · simp only [splitSlash, hc, if_false] at hp
      cases hsp : splitSlash cs with
      | nil => exact absurd hsp (splitSlash_ne_nil cs)
      | cons q qs =>
        rw [hsp] at hp
        rcases List.mem_cons.mp hp with rfl | hp'
        · intro hmem
          rcases List.mem_cons.mp hmem with h1 | h2
          · exact hc h1.symm
          · exact ih q (hsp ▸ List.mem_cons_self q qs) h2
        · exact ih p (hsp ▸ List.mem_cons_of_mem q hp')

theorem getLastD_mem_cons {α : Type} (x : α) (xs : List α) (d : α) :
    (x :: xs).getLastD d ∈ x :: xs := by
  have h : (x :: xs).getLastD d = (x :: xs).getLast (List.cons_ne_nil x xs) := by
    rw [List.getLastD_eq_getLast?]
    rw [List.getLast?_eq_getLast (x :: xs) (List.cons_ne_nil x xs)]
    rfl
  rw [h]
  exact List.getLast_mem _

theorem pathlib_name_ne_of_slash (s : List Char) (h : '/' ∈ s) : pathlib_name s ≠ s := by
  intro heq
  unfold pathlib_name at heq
  cases hl : (splitSlash s).filter (fun p => decide (p ≠ [] ∧ p ≠ ['.'])) with
  | nil =>
    rw [hl] at heq
    simp only [List.getLastD] at heq
    rw [← heq] at h
    exact absurd h (List.not_mem_nil _)
  | cons q qs =>
    have hmem : pathlib_name s ∈ (splitSlash s).filter (fun p => decide (p ≠ [] ∧ p ≠ ['.'])) := by
      unfold pathlib_name
      rw [hl]
      exact getLastD_mem_cons q qs []
    have hslash := splitSlash_no_slash s (pathlib_name s) (List.mem_of_mem_filter hmem)
    unfold pathlib_name at hslash
    rw [heq] at hslash
    exact hslash h

/-- Counterexample to C9 as stated: the empty filename equals its own
basename (`Path("").name == ""`), and the content is non-empty, yet the
handler does not write the report — the `not filename` guard returns the
"filename and content are required" error envelope first. -/
theorem write_report_empty_filename_counterexample :
    pathlib_name [] = []
    ∧ ("report body".data ≠ [])
    ∧ write_incident_report "/var/incidents".data [] "report body".data =
        .error "filename and content are required" := by
  refine ⟨rfl, by decide, ?_⟩
  rfl

/-- C9 (amended): any input whose filename differs from its own basename —
in particular any filename containing a `'/'` — yields a JSON error
envelope and no write; when the filename equals its basename, is non-empty,
is not `".."`, and the content is non-empty, the report is written exactly
at `incidents_dir/filename`; the filename `".."` equals its basename and
passes the traversal guard, but the write on `incidents_dir/..` (a
directory) fails with `IsADirectoryError`, returned as an error envelope
with no file written. -/
theorem write_incident_report_traversal_defence
    (incidents_dir filename content : List Char) :
    (pathlib_name filename ≠ filename →
      ∃ msg, write_incident_report incidents_dir filename content = .error msg)
    ∧ ('/' ∈ filename → pathlib_name filename ≠ filename)
    ∧ (pathlib_name filename = filename → filename ≠ [] → filename ≠ "..".data →
        content ≠ [] →
        write_incident_report incidents_dir filename content =
          .written (incidents_dir ++ '/' :: filename))
    ∧ (pathlib_name "..".data = "..".data
        ∧ (content ≠ [] →
            write_incident_report incidents_dir "..".data content =
              .error "IsADirectoryError")) := by
  refine ⟨?_, pathlib_name_ne_of_slash filename, ?_, rfl, ?_⟩
  · intro hne
    by_cases hempty : filename = [] ∨ content = []
    · exact ⟨"filename and content are required", by simp [write_incident_report, hempty]⟩
    · exact ⟨"Invalid filename (path traversal rejected)",
        by simp [write_incident_report, hempty, hne]⟩
  · intro heq hf hdd hc
    have hempty : ¬(filename = [] ∨ content = []) := by
      push_neg
      exact ⟨hf, hc⟩
    simp [write_incident_report, hempty, heq, hdd]
  · intro hc
    have hempty : ¬("..".data = [] ∨ content = []) := by
      push_neg
      exact ⟨by decide, hc⟩
    have hdd : pathlib_name "..".data = "..".data := by decide
    unfold write_incident_report
    rw [if_neg hempty, if_neg (not_not_intro hdd), if_pos hdd]

/-- Witness for C9's amended theorem: `"a/b"` differs from its basename,
`"../x"` is rejected with an error envelope, `"report.md"` with non-empty
content is written at `"/var/incidents/report.md"`, and `".."` passes the
traversal guard but ends in the `IsADirectoryError` envelope. -/
theorem write_incident_report_traversal_defence_witness :
    pathlib_name "a/b".data ≠ "a/b".data
    ∧ (∃ msg, write_incident_report "/var/incidents".data "../x".data "body".data =
        .error msg)
    ∧ write_incident_report "/var/incidents".data "report.md".data "body".data =
        .written ("/var/incidents".data ++ '/' :: "report.md".data)
    ∧ write_incident_report "/var/incidents".data "..".data "body".data =
        .error "IsADirectoryError" :=
  ⟨(write_incident_report_traversal_defence "/var/incidents".data "a/b".data
      "body".data).2.1 (by decide),
   (write_incident_report_traversal_defence "/var/incidents".data "../x".data
      "body".data).1 (by decide),
   (write_incident_report_traversal_defence "/var/incidents".data "report.md".data
      "body".data).2.2.1 (by decide) (by decide) (by decide) (by decide),
   (write_incident_report_traversal_defence "/var/incidents".data "..".data
      "body".data).2.2.2.2 (by decide)⟩

/-- Addition modulo 2^32 (SHA-256 word arithmetic). -/
def add32 (a b : Nat) : Nat := (a + b) % 4294967296

/-- Right rotation of a 32-bit word by `n`. -/
def rotr32 (n a : Nat) : Nat := ((a >>> n) ||| (a <<< (32 - n))) % 4294967296

def ch32 (e f g : Nat) : Nat := (e &&& f) ^^^ ((e ^^^ 4294967295) &&& g)

def maj32 (a b c : Nat) : Nat := (a &&& b) ^^^ (a &&& c) ^^^ (b &&& c)

def bigSigma0 (a : Nat) : Nat := rotr32 2 a ^^^ rotr32 13 a ^^^ rotr32 22 a

def bigSigma1 (e : Nat) : Nat := rotr32 6 e ^^^ rotr32 11 e ^^^ rotr32 25 e

def smallSigma0 (x : Nat) : Nat := rotr32 7 x ^^^ rotr32 18 x ^^^ (x >>> 3)

def smallSigma1 (x : Nat) : Nat := rotr32 17 x ^^^ rotr32 19 x ^^^ (x >>> 10)

/-- The 64 SHA-256 round constants (FIPS 180-4). -/
def sha256K : List Nat :=
  [1116352408, 1899447441, 3049323471, 3921009573, 961987163, 1508970993,
   2453635748, 2870763221, 3624381080, 310598401, 607225278, 1426881987,
   1925078388, 2162078206, 2614888103, 3248222580, 3835390401, 4022224774,
   264347078, 604807628, 770255983, 1249150122, 1555081692, 1996064986,
   2554220882, 2821834349, 2952996808, 3210313671, 3336571891, 3584528711,
   113926993, 338241895, 666307205, 773529912, 1294757372, 1396182291,
   1695183700, 1986661051, 2177026350, 2456956037, 2730485921, 2820302411,
   3259730800, 3345764771, 3516065817, 3600352804, 4094571909, 275423344,
   430227734, 506948616, 659060556, 883997877, 958139571, 1322822218,
   1537002063, 1747873779, 1955562222, 2024104815, 2227730452, 2361852424,
   2428436474, 2756734187, 3204031479, 3329325298]

/-- The eight working registers of the SHA-256 compression function. -/
structure Hash8 where
  a : Nat
  b : Nat
  c : Nat
  d : Nat
  e : Nat
  f : Nat
  g : Nat
  h : Nat

/-- The SHA-256 initial hash value (FIPS 180-4). -/
def sha256H0 : Hash8 :=
  ⟨1779033703, 3144134277, 1013904242, 2773480762,
   1359893119, 2600822924, 528734635, 1541459225⟩

/-- Big-endian packing of bytes into 32-bit words. -/
def bytesToWords : List Nat → List Nat
  | b0 :: b1 :: b2 :: b3 :: rest =>
    (((b0 * 256 + b1) * 256 + b2) * 256 + b3) :: bytesToWords rest
  | _ => []

/-- One message-schedule extension step; `rev` holds the scheduled words
most-recent first, so `rev[1]` is w[t−2], `rev[6]` is w[t−7], `rev[14]` is
w[t−15] and `rev[15]` is w[t−16]. -/
def scheduleStep (rev : List Nat) : List Nat :=
  add32 (add32 (smallSigma1 (rev.getD 1 0)) (rev.getD 6 0))
    (add32 (smallSigma0 (rev.getD 14 0)) (rev.getD 15 0)) :: rev

/-- Extend the 16 block words to the 64-word message schedule. -/
def messageSchedule (ws : List Nat) : List Nat :=
  ((List.range 48).foldl (fun rev _ => scheduleStep rev) ws.reverse).reverse

/-- One SHA-256 round. -/
def compressStep (st : Hash8) (kw : Nat × Nat) : Hash8 :=
  let t1 := add32 st.h (add32 (bigSigma1 st.e) (add32 (ch32 st.e st.f st.g) (add32 kw.1 kw.2)))
  let t2 := add32 (bigSigma0 st.a) (maj32 st.a st.b st.c)
  ⟨add32 t1 t2, st.a, st.b, st.c, add32 st.d t1, st.e, st.f, st.g⟩

/-- Compress one 64-byte block into the running hash value. -/
def compressBlock (st : Hash8) (block : List Nat) : Hash8 :=
  let ws := messageSchedule (bytesToWords block)
  let r := (sha256K.zip ws).foldl compressStep st
  ⟨add32 st.a r.a, add32 st.b r.b, add32 st.c r.c, add32 st.d r.d,
   add32 st.e r.e, add32 st.f r.f, add32 st.g r.g, add32 st.h r.h⟩

/-- The 8-byte big-endian encoding of the message bit length. -/
def lengthBytes64 (n : Nat) : List Nat :=
  [n / 72057594037927936 % 256, n / 281474976710656 % 256, n / 1099511627776 % 256,
   n / 4294967296 % 256, n / 16777216 % 256, n / 65536 % 256, n / 256 % 256, n % 256]

/-- SHA-256 padding: append 0x80, zero bytes up to 56 mod 64, then the
64-bit big-endian bit length. -/
def padMessage (msg : List Nat) : List Nat :=
  msg ++ 128 :: List.replicate ((120 - (msg.length + 1) % 64) % 64) 0 ++
    lengthBytes64 (msg.length * 8)

/-- Split into 64-byte chunks (fuel-driven; called with `fuel = l.length`). -/
def chunks64 : Nat → List Nat → List (List Nat)
  | 0, _ => []
  | _, [] => []
  | fuel + 1, l => l.take 64 :: chunks64 fuel (l.drop 64)

/-- Big-endian bytes of one 32-bit word. -/
def wordBytes (w : Nat) : List Nat :=
  [w / 16777216 % 256, w / 65536 % 256, w / 256 % 256, w % 256]

/-- SHA-256 of a byte string, as 32 digest bytes (`hashlib.sha256`). -/
def sha256 (msg : List Nat) : List Nat :=
  let padded := padMessage msg
  let final := (chunks64 padded.length padded).foldl compressBlock sha256H0
  wordBytes final.a ++ wordBytes final.b ++ wordBytes final.c ++ wordBytes final.d ++
    wordBytes final.e ++ wordBytes final.f ++ wordBytes final.g ++ wordBytes final.h

/-- The HMAC key block: hash keys longer than the 64-byte block size, then
zero-pad to 64 bytes (RFC 2104, as implemented by `hmac.new`). -/
def hmacKeyBlock (key : List Nat) : List Nat :=
  let k1 := if 64 < key.length then sha256 key else key
  k1 ++ List.replicate (64 - k1.length) 0

/-- `hmac.new(key, msg, hashlib.sha256).digest()`: outer hash over
opad-masked key and the inner hash of ipad-masked key and message. -/
def hmac_sha256 (key msg : List Nat) : List Nat :=
  sha256 (((hmacKeyBlock key).map (fun b => b ^^^ 92)) ++
    sha256 (((hmacKeyBlock key).map (fun b => b ^^^ 54)) ++ msg))

/-- Lowercase hex digit, as produced by `hexdigest()`. -/
def hexChar (n : Nat) : Char :=
  if n < 10 then Char.ofNat (48 + n) else Char.ofNat (87 + n)

/-- Lowercase hex encoding of a byte string. -/
def bytesToHex : List Nat → List Char
  | [] => []
  | b :: rest => hexChar (b / 16) :: hexChar (b % 16) :: bytesToHex rest

/-- `hmac.new(secret.encode(), body, hashlib.sha256).hexdigest()` (the
`expected` value of `main._verify_signature`; the secret is ASCII). -/
def hmac_hexdigest (secret : List Char) (body : List Nat) : List Char :=
  bytesToHex (hmac_sha256 (secret.map Char.toNat) body)

/-- Python `str.removeprefix`: drop `pre` from the front of `s` when it is
a prefix, else return `s` unchanged. -/
def removeStart (s pre : List Char) : List Char :=
  if pre.isPrefixOf s then s.drop pre.length else s

/-- `hmac.compare_digest` on ASCII strings: value-equality (the
constant-time execution property is a timing property, not a value
property). -/
def compare_digest (a b : List Char) : Bool := a == b

/-- `main._verify_signature(body, signature, secret)`. -/
def verify_signature (body : List Nat) (signature : List Char) (secret : List Char) : Bool :=
  if signature = [] then false
  else compare_digest (hmac_hexdigest secret body) (removeStart signature "v1=".data)

/-- The signature-verification segment of `main.receive_webhook`: when a
webhook secret is configured and verification fails, answer 401, bump
`webhooks_failed` and record a `webhook_auth_failure` error; otherwise
proceed (no HTTP error, counters untouched). -/
def receive_webhook_auth (secret : List Char) (body : List Nat)
    (signature_header : List Char) (webhooks_failed : Int) (auth_errors : Nat) :
    Option Nat × Int × Nat :=
  if secret ≠ [] ∧ verify_signature body signature_header secret = false then
    (some 401, webhooks_failed + 1, auth_errors + 1)
  else (none, webhooks_failed, auth_errors)

theorem hexChar_ne_v (n : Nat) (h : n < 16) : hexChar n ≠ 'v' := by
  interval_cases n <;> decide

theorem sha256_head (msg : List Nat) :
    ∃ b t, sha256 msg = b :: t ∧ b < 256 := by
  refine ⟨_, _, rfl, Nat.mod_lt _ (by norm_num)⟩

theorem hmac_hexdigest_head (secret : List Char) (body : List Nat) :
    ∃ c t, hmac_hexdigest secret body = c :: t ∧ c ≠ 'v' := by
  unfold hmac_hexdigest hmac_sha256
  obtain ⟨b, t, hbt, hlt⟩ := sha256_head
    (((hmacKeyBlock (secret.map Char.toNat)).map (fun b => b ^^^ 92)) ++
      sha256 (((hmacKeyBlock (secret.map Char.toNat)).map (fun b => b ^^^ 54)) ++ body))
  rw [hbt]
  refine ⟨hexChar (b / 16), hexChar (b % 16) :: bytesToHex t, rfl, ?_⟩
  exact hexChar_ne_v _ (Nat.div_lt_of_lt_mul hlt)

theorem v1_not_prefix_of_hexdigest (secret : List Char) (body : List Nat) :
    ("v1=".data.isPrefixOf (hmac_hexdigest secret body)) = false := by
  obtain ⟨c, t, heq, hne⟩ := hmac_hexdigest_head secret body
  rw [heq]
  show (['v', '1', '='].isPrefixOf (c :: t)) = false
  have hb : ('v' == c) = false := beq_eq_false_iff_ne.mpr (fun h => hne h.symm)
  simp [List.isPrefixOf, hb]

theorem hmac_hexdigest_ne_nil (secret : List Char) (body : List Nat) :
    hmac_hexdigest secret body ≠ [] := by
  obtain ⟨c, t, heq, _⟩ := hmac_hexdigest_head secret body
  rw [heq]
  exact List.cons_ne_nil c t

/-- Counterexample to C8 as stated: for secret `"s"` and body `"x"`, the
bare hex digest — without the `v1=` prefix — is also accepted by
`_verify_signature`, because `str.removeprefix` leaves a header unchanged
when the prefix is absent; so acceptance is not equivalent to the header
being `v1=` + digest. -/
theorem bare_digest_accepted_counterexample :
    verify_signature ("x".data.map Char.toNat)
      (hmac_hexdigest "s".data ("x".data.map Char.toNat)) "s".data = true
    ∧ hmac_hexdigest "s".data ("x".data.map Char.toNat) ≠
        "v1=".data ++ hmac_hexdigest "s".data ("x".data.map Char.toNat) := by
  constructor
  · unfold verify_signature
    rw [if_neg (hmac_hexdigest_ne_nil "s".data ("x".data.map Char.toNat))]
    unfold removeStart
    rw [v1_not_prefix_of_hexdigest]
    simp [compare_digest]
  · intro h
    have hlen := congrArg List.length h
    rw [List.length_append] at hlen
    have h3 : ("v1=".data).length = 3 := rfl
    omega

/-- C8 (amended): with a secret configured, a webhook signature header is
accepted iff it equals `v1=` + the lowercase hex HMAC-SHA256 of the body
under the secret, OR equals that bare hex digest (the `v1=` prefix is
optional, because `removeprefix` is a no-op when the prefix is absent); any
other header — including any one-bit mutation of a valid one — fails
verification, and a failing verification yields the 401 response, the
`webhooks_failed` bump and a recorded auth error. -/
theorem webhook_signature_verification (body : List Nat) (sig secret : List Char)
    (wf : Int) (we : Nat) :
    (verify_signature body sig secret = true ↔
      (sig = "v1=".data ++ hmac_hexdigest secret body ∨
        sig = hmac_hexdigest secret body))
    ∧ (secret ≠ [] → verify_signature body sig secret = false →
        receive_webhook_auth secret body sig wf we = (some 401, wf + 1, we + 1)) := by
  constructor
  · by_cases hnil : sig = []
    · subst hnil
      unfold verify_signature
      rw [if_pos rfl]
      constructor
      · intro h
        exact absurd h (by simp)
      · rintro (h | h)
        · obtain ⟨h1, _⟩ := List.append_eq_nil.mp h.symm
          exact absurd h1 (by decide)
        · exact absurd h.symm (hmac_hexdigest_ne_nil secret body)
    · unfold verify_signature
      rw [if_neg hnil]
      unfold removeStart compare_digest
      by_cases hpre : ("v1=".data.isPrefixOf sig) = true
      · obtain ⟨t', rfl⟩ := (List.isPrefixOf_iff_prefix.mp hpre)
        rw [if_pos hpre]
        have hdrop : ("v1=".data ++ t').drop ("v1=".data).length = t' :=
          List.drop_left _ _
        rw [hdrop, beq_iff_eq]
        constructor
        · intro h
          exact Or.inl (by rw [h])
        · rintro (h | h)
          · exact (List.append_cancel_left h).symm
          · exfalso
            have : ("v1=".data.isPrefixOf (hmac_hexdigest secret body)) = true := by
              rw [← h]
              exact List.isPrefixOf_iff_prefix.mpr ⟨t', rfl⟩
            rw [v1_not_prefix_of_hexdigest] at this
            exact Bool.false_ne_true this
      · rw [if_neg hpre, beq_iff_eq]
        constructor
        · intro h
          exact Or.inr h.symm
        · rintro (h | h)
          · exfalso
            apply hpre
            rw [h]
            exact List.isPrefixOf_iff_prefix.mpr ⟨_, rfl⟩
          · exact h.symm
  · intro hsec hfail
    simp [receive_webhook_auth, hsec, hfail]

/-- Witness for C8's amended theorem: with secret `"s"` configured and body
`[120]` (the byte of `"x"`), the empty signature header fails verification
and the webhook handler answers 401, bumps `webhooks_failed` from 0 to 1
and records one auth error. -/
theorem webhook_signature_verification_witness :
    ("s".data ≠ [])
    ∧ verify_signature [120] [] "s".data = false
    ∧ receive_webhook_auth "s".data [120] [] 0 0 = (some 401, 1, 1) :=
  ⟨by decide, rfl,
   (webhook_signature_verification [120] [] "s".data 0 0).2 (by decide) rfl⟩

end SreAgent
